import Mathlib

/-!
Verification of the `txtopener` encoding-normalization pipeline.

Shallow embedding of the repository's Go sources:
  * `txtopener.go` — the current exported `NewReader` (delegates to
    `golang.org/x/net/html/charset.NewReader`, then strips a UTF-8 BOM);
  * `part_000` — an earlier `NewReader` (same library delegate, different
    short-stream handling);
  * `part_001` — an earlier version that vendors the charset logic itself:
    `newReader`, `determineEncoding`, `prescan`, `fromMetaElement`, `boms`.

Bytes are modelled as `Nat` (values < 256 in practice), byte streams as a
list of data bytes followed by a terminal condition (clean EOF or an I/O
error code).  External collaborators that the sources call are modelled as
follows:
  * the HTML tokenizer (`golang.org/x/net/html`) is abstracted as a function
    from bytes to the list of start/self-closing tags it yields (the only
    token kinds `prescan` inspects; the token stream ends at the tokenizer's
    ErrorToken, i.e. at the end of the list);
  * `mime.ParseMediaType` is abstracted as a function from the content-type
    string to the optional parameter list of a successfully parsed media
    type;
  * `charset.Lookup` is abstracted as a function from a label to the Go
    pair (possibly-nil encoding, canonical name); a concrete instance
    `lookupStd` models the IANA/WHATWG registry (`x/text/encoding/htmlindex`)
    on the labels used here;
  * the byte decoders of `x/text/encoding` (`unicode.UTF8`, which replaces
    ill-formed input by U+FFFD; UTF-16; `charmap.ISO8859_1`;
    `charmap.Windows1252`) are modelled concretely below.
-/

namespace Txtopener

/-- Is `b` a UTF-8 continuation byte (0x80..0xBF)?  Mirrors the acceptance
ranges of Go's `unicode/utf8` package. -/
def isCont (b : Nat) : Bool := 0x80 ≤ b && b ≤ 0xBF

/-- Accepted second byte of a three-byte UTF-8 sequence led by `b`
(Go `utf8.acceptRanges`: E0 → A0..BF, ED → 80..9F, otherwise 80..BF). -/
def accept3 (b c1 : Nat) : Bool :=
  if b = 0xE0 then 0xA0 ≤ c1 && c1 ≤ 0xBF
  else if b = 0xED then 0x80 ≤ c1 && c1 ≤ 0x9F
  else isCont c1

/-- Accepted second byte of a four-byte UTF-8 sequence led by `b`
(Go `utf8.acceptRanges`: F0 → 90..BF, F4 → 80..8F, otherwise 80..BF). -/
def accept4 (b c1 : Nat) : Bool :=
  if b = 0xF0 then 0x90 ≤ c1 && c1 ≤ 0xBF
  else if b = 0xF4 then 0x80 ≤ c1 && c1 ≤ 0x8F
  else isCont c1

/-- Go `utf8.Valid` on a byte list: well-formed UTF-8 (no overlong forms,
no surrogates, max U+10FFFF). -/
def utf8Valid : List Nat → Bool
  | [] => true
  | b :: rest =>
    if b < 0x80 then utf8Valid rest
    else if 0xC2 ≤ b && b ≤ 0xDF then
      match rest with
      | c1 :: r => isCont c1 && utf8Valid r
      | [] => false
    else if 0xE0 ≤ b && b ≤ 0xEF then
      match rest with
      | c1 :: c2 :: r => accept3 b c1 && isCont c2 && utf8Valid r
      | _ => false
    else if 0xF0 ≤ b && b ≤ 0xF4 then
      match rest with
      | c1 :: c2 :: c3 :: r => accept4 b c1 && isCont c2 && isCont c3 && utf8Valid r
      | _ => false
    else false

/-- UTF-8 encoding of the replacement character U+FFFD. -/
def rep : List Nat := [0xEF, 0xBF, 0xBD]

/-- The decoder of `x/text/encoding/unicode.UTF8`: well-formed sequences
pass through unchanged; each maximal subpart of an ill-formed subsequence
is replaced by U+FFFD. -/
def utf8Sanitize : List Nat → List Nat
  | [] => []
  | b :: rest =>
    if b < 0x80 then b :: utf8Sanitize rest
    else if 0xC2 ≤ b && b ≤ 0xDF then
      match rest with
      | c1 :: r => if isCont c1 then b :: c1 :: utf8Sanitize r
                   else rep ++ utf8Sanitize (c1 :: r)
      | [] => rep
    else if 0xE0 ≤ b && b ≤ 0xEF then
      match rest with
      | c1 :: r2 =>
        if accept3 b c1 then
          match r2 with
          | c2 :: r => if isCont c2 then b :: c1 :: c2 :: utf8Sanitize r
                       else rep ++ utf8Sanitize (c2 :: r)
          | [] => rep
        else rep ++ utf8Sanitize (c1 :: r2)
      | [] => rep
    else if 0xF0 ≤ b && b ≤ 0xF4 then
      match rest with
      | c1 :: r2 =>
        if accept4 b c1 then
          match r2 with
          | c2 :: r3 =>
            if isCont c2 then
              match r3 with
              | c3 :: r => if isCont c3 then b :: c1 :: c2 :: c3 :: utf8Sanitize r
                           else rep ++ utf8Sanitize (c3 :: r)
              | [] => rep
            else rep ++ utf8Sanitize (c2 :: r3)
          | [] => rep
        else rep ++ utf8Sanitize (c1 :: r2)
      | [] => rep
    else rep ++ utf8Sanitize rest
termination_by l => l.length
decreasing_by all_goals (simp only [List.length_cons]; omega)

/-- Standard UTF-8 encoding of a Unicode code point (as produced by the
`x/text` decoders when re-encoding decoded runes). -/
def encodeUtf8 (c : Nat) : List Nat :=
  if c < 0x80 then [c]
  else if c < 0x800 then [0xC0 + c / 0x40, 0x80 + c % 0x40]
  else if c < 0x10000 then [0xE0 + c / 0x1000, 0x80 + c / 0x40 % 0x40, 0x80 + c % 0x40]
  else [0xF0 + c / 0x40000, 0x80 + c / 0x1000 % 0x40, 0x80 + c / 0x40 % 0x40, 0x80 + c % 0x40]

/-- The `x/text/encoding/charmap.Windows1252` table: byte to Unicode code point. -/
def w1252 (b : Nat) : Nat :=
  if b = 0x80 then 0x20AC else if b = 0x82 then 0x201A
  else if b = 0x83 then 0x0192 else if b = 0x84 then 0x201E
  else if b = 0x85 then 0x2026 else if b = 0x86 then 0x2020
  else if b = 0x87 then 0x2021 else if b = 0x88 then 0x02C6
  else if b = 0x89 then 0x2030 else if b = 0x8A then 0x0160
  else if b = 0x8B then 0x2039 else if b = 0x8C then 0x0152
  else if b = 0x8E then 0x017D else if b = 0x91 then 0x2018
  else if b = 0x92 then 0x2019 else if b = 0x93 then 0x201C
  else if b = 0x94 then 0x201D else if b = 0x95 then 0x2022
  else if b = 0x96 then 0x2013 else if b = 0x97 then 0x2014
  else if b = 0x98 then 0x02DC else if b = 0x99 then 0x2122
  else if b = 0x9A then 0x0161 else if b = 0x9B then 0x203A
  else if b = 0x9C then 0x0153 else if b = 0x9E then 0x017E
  else if b = 0x9F then 0x0178 else b

/-- UTF-16 decoding (`x/text/encoding/unicode`) to UTF-8 bytes: pairs of
bytes form code units (`be` selects byte order), surrogate pairs combine,
ill-formed units and a trailing odd byte become U+FFFD. -/
def utf16Decode (be : Bool) : List Nat → List Nat
  | [] => []
  | [_] => rep
  | a :: b :: rest =>
    let u := if be then a * 256 + b else b * 256 + a
    if u < 0xD800 || 0xE000 ≤ u then encodeUtf8 u ++ utf16Decode be rest
    else if u < 0xDC00 then
      match rest with
      | c :: d :: rest2 =>
        let v := if be then c * 256 + d else d * 256 + c
        if 0xDC00 ≤ v && v < 0xE000 then
          encodeUtf8 (0x10000 + (u - 0xD800) * 0x400 + (v - 0xDC00)) ++ utf16Decode be rest2
        else rep ++ utf16Decode be (c :: d :: rest2)
      | other => rep ++ utf16Decode be other
    else rep ++ utf16Decode be rest
termination_by l => l.length
decreasing_by all_goals (simp only [List.length_cons]; omega)

/-- The encodings that can flow through this pipeline (`x/text/encoding`
values reachable from the sources: the no-op encoding, `unicode.UTF8`,
the two UTF-16 variants, `charmap.ISO8859_1`, `charmap.Windows1252`). -/
inductive Enc where
  | nop
  | utf8
  | utf16be
  | utf16le
  | iso8859_1
  | windows1252
deriving DecidableEq, Repr

/-- The byte-level decoder of each encoding (`e.NewDecoder()` behaviour on
a whole stream). -/
def decodeBytes : Enc → List Nat → List Nat
  | .nop, l => l
  | .utf8, l => utf8Sanitize l
  | .utf16be, l => utf16Decode true l
  | .utf16le, l => utf16Decode false l
  | .iso8859_1, l => l.flatMap (fun b => encodeUtf8 b)
  | .windows1252, l => l.flatMap (fun b => encodeUtf8 (w1252 b))

/-- Go `strings.Index`-style search: the suffix of `s` right after the first
occurrence of `pat`, if any. -/
def startsWithL : List Char → List Char → Bool
  | _, [] => true
  | [], _ :: _ => false
  | a :: as, p :: ps => a = p && startsWithL as ps

def dropAfterSub : List Char → List Char → Option (List Char)
  | [], _ => none
  | a :: rest, pat =>
    if startsWithL (a :: rest) pat then some ((a :: rest).drop pat.length)
    else dropAfterSub rest pat

theorem startsWithL_length {s pat : List Char} (h : startsWithL s pat = true) :
    pat.length ≤ s.length := by
  induction s generalizing pat with
  | nil => cases pat with
    | nil => simp
    | cons p ps => simp [startsWithL] at h
  | cons a as ih => cases pat with
    | nil => simp
    | cons p ps =>
      simp only [startsWithL, Bool.and_eq_true] at h
      simpa [List.length_cons] using Nat.succ_le_succ (ih h.2)

theorem dropAfterSub_length {s pat s1 : List Char} (h : dropAfterSub s pat = some s1) :
    s1.length + pat.length ≤ s.length := by
  induction s with
  | nil => simp [dropAfterSub] at h
  | cons a rest ih =>
    rw [dropAfterSub] at h
    by_cases hs : startsWithL (a :: rest) pat = true
    · rw [if_pos hs, Option.some_inj] at h
      subst h
      have := startsWithL_length hs
      simp only [List.length_drop]
      omega
    · rw [if_neg hs] at h
      exact Nat.le_trans (ih h) (by simp)

/-- The whitespace cutset `" \t\n\f\r"` used by `fromMetaElement`. -/
def wsp (c : Char) : Bool := c = ' ' || c = '\t' || c = '\n' || c = '\x0c' || c = '\r'

/-- Go `strings.TrimLeft(s, " \t\n\f\r")`. -/
def trimL (s : List Char) : List Char := s.dropWhile wsp

theorem trimL_length_le (s : List Char) : (trimL s).length ≤ s.length := by
  induction s with
  | nil => simp [trimL]
  | cons a as ih =>
    rw [trimL, List.dropWhile_cons]
    split
    · exact Nat.le_trans ih (by simp)
    · simp

/-- Go `strings.IndexRune`-style search: the segment of `s` before the first occurrence
of `q`, or none when `q` does not occur. -/
def takeUntilChar : List Char → Char → Option (List Char)
  | [], _ => none
  | c :: cs, q => if c = q then some [] else (takeUntilChar cs q).map (fun l => c :: l)

def charsetPat : List Char := ['c', 'h', 'a', 'r', 's', 'e', 't']

/-- The function `fromMetaElement` (src/unnamed/part_001 lines 221-253): extracts the
charset name from a `content` attribute value. -/
def fromMetaElementL (s : List Char) : List Char :=
  if s = [] then []
  else
    match h : dropAfterSub s charsetPat with
    | none => []
    | some s1 =>
      match trimL s1 with
      | '=' :: s3 =>
        match trimL s3 with
        | [] => []
        | q :: r =>
          if q = '"' || q = '\x27' then
            match takeUntilChar r q with
            | some pre => pre
            | none => []
          else (q :: r).takeWhile (fun c => !(wsp c || c = ';'))
      | _ => fromMetaElementL (trimL s1)
termination_by s.length
decreasing_by
  have h1 := dropAfterSub_length h
  have h2 : (trimL s1).length ≤ s1.length := trimL_length_le s1
  simp only [charsetPat, List.length_cons, List.length_nil] at h1
  omega

def fromMetaElement (s : String) : String := ⟨fromMetaElementL s.data⟩

/-- Go `strings.HasPrefix` on the underlying characters. -/
def hasPrefixS (s p : String) : Bool := startsWithL s.data p.data

/-- Byte-wise ASCII lowercasing of attribute values, as done in `prescan`
(`if 'A' <= c && c <= 'Z' { val[i] = c + 0x20 }`). -/
def lowerChar (c : Char) : Char :=
  if 'A' ≤ c && c ≤ 'Z' then Char.ofNat (c.toNat + 0x20) else c

def lowerStr (s : String) : String := ⟨s.data.map lowerChar⟩

/-- A start or self-closing tag as delivered by the HTML tokenizer: the
(lower-cased) tag name and the attribute key/value pairs in order. -/
structure Tag where
  name : String
  attrs : List (String × String)
deriving DecidableEq, Repr

/-- The `needPragma` three-state flag of `prescan`
(`dontKnow` / `doNeedPragma` / `doNotNeedPragma`). -/
inductive NeedP where
  | dontKnow
  | doNeed
  | doNotNeed
deriving DecidableEq, Repr

/-- The per-tag loop state of `prescan`: attribute names already seen
(`attrList`), the pragma flag, the three-state `needPragma`, and the
candidate encoding and name. -/
structure TagState where
  seen : List String
  gotPragma : Bool
  needPragma : NeedP
  e : Option Enc
  name : String
deriving DecidableEq

/-- One iteration of `prescan`'s attribute loop
(src/unnamed/part_001 lines 172-204). -/
def procAttr (lookup : String → Option Enc × String) (st : TagState)
    (kv : String × String) : TagState :=
  let ks := kv.1
  if st.seen.contains ks then st
  else
    let st1 := { st with seen := ks :: st.seen }
    let v := lowerStr kv.2
    if ks = "http-equiv" then
      if v = "content-type" then { st1 with gotPragma := true } else st1
    else if ks = "content" then
      match st1.e with
      | some _ => st1
      | none =>
        let nm := fromMetaElement v
        if nm = "" then { st1 with name := nm }
        else
          match lookup nm with
          | (some e2, nm2) => { st1 with e := some e2, name := nm2, needPragma := .doNeed }
          | (none, nm2) => { st1 with name := nm2 }
    else if ks = "charset" then
      let r := lookup v
      { st1 with e := r.1, name := r.2, needPragma := .doNotNeed }
    else st1

def initTagState : TagState := ⟨[], false, .dontKnow, none, ""⟩

/-- The function `prescan` (src/unnamed/part_001 lines 151-216) over the token stream:
per meta tag, fold the attribute loop, then apply the pragma gate and the
utf-16 remapping; the first accepted tag wins, the end of the stream is the
tokenizer's ErrorToken (`return nil, ""`). -/
def prescan (lookup : String → Option Enc × String) : List Tag → Option Enc × String
  | [] => (none, "")
  | t :: ts =>
    if t.name = "meta" then
      let st := t.attrs.foldl (procAttr lookup) initTagState
      if st.needPragma = .dontKnow || (st.needPragma = .doNeed && !st.gotPragma) then
        prescan lookup ts
      else
        let pr := if hasPrefixS st.name "utf-16" then (some Enc.nop, "utf-8")
                  else (st.e, st.name)
        match pr with
        | (some e2, nm) => (some e2, nm)
        | (none, _) => prescan lookup ts
    else prescan lookup ts

/-- The abstracted external collaborators of the charset logic: the HTML
tokenizer, `charset.Lookup`, and `mime.ParseMediaType` (see the module
comment). -/
structure Ctx where
  tokenize : List Nat → List Tag
  lookup : String → Option Enc × String
  parseMT : String → Option (List (String × String))

/-- Go map access on the parameter list of a parsed media type. -/
def assocFind : List (String × String) → String → Option String
  | [], _ => none
  | (k, v) :: r, key => if k = key then some v else assocFind r key

/-- The content-type branch of `determineEncoding`: a successfully parsed
media type whose `charset` parameter the registry recognizes
(src/unnamed/part_001 lines 103-109). -/
def ctCharset (ctx : Ctx) (ct : String) : Option (Enc × String) :=
  match ctx.parseMT ct with
  | none => none
  | some params =>
    match assocFind params "charset" with
    | none => none
    | some cs =>
      match ctx.lookup cs with
      | (some e, nm) => some (e, nm)
      | (none, _) => none

/-- The partial-trailing-rune trim of `determineEncoding`
(src/unnamed/part_001 lines 113-122): scan backward over at most the last
3 bytes; stop at an ASCII byte, truncate at a rune-start byte. -/
def trimTail (c : List Nat) : List Nat :=
  if 1 ≤ c.length then
    if c.getD (c.length - 1) 0 < 0x80 then c
    else if c.getD (c.length - 1) 0 &&& 0xC0 ≠ 0x80 then c.take (c.length - 1)
    else if 2 ≤ c.length then
      if c.getD (c.length - 2) 0 < 0x80 then c
      else if c.getD (c.length - 2) 0 &&& 0xC0 ≠ 0x80 then c.take (c.length - 2)
      else if 3 ≤ c.length then
        if c.getD (c.length - 3) 0 < 0x80 then c
        else if c.getD (c.length - 3) 0 &&& 0xC0 ≠ 0x80 then c.take (c.length - 3)
        else c
      else c
    else c
  else c

def bomUtf16be : List Nat := [0xFE, 0xFF]
def bomUtf16le : List Nat := [0xFF, 0xFE]
def bomUtf8 : List Nat := [0xEF, 0xBB, 0xBF]

/-- The BOM branch of `determineEncoding`: `e, name = charset.Lookup(b.enc)`
then `return e, name, true` (the encoding may in principle be nil if the
lookup fails, exactly as in the Go source). -/
def bomLookup (ctx : Ctx) (label : String) : Option Enc × String × Bool :=
  ((ctx.lookup label).1, (ctx.lookup label).2, true)

/-- The `if len(content) > 0 { e, name = prescan(content) }` guard of
`determineEncoding`: `prescan` only runs on a non-empty lookahead. -/
def prescanGuard (ctx : Ctx) (content : List Nat) : Option Enc × String :=
  if content.isEmpty then ((none : Option Enc), "")
  else prescan ctx.lookup (ctx.tokenize content)

/-- No recognized BOM signature at the front of the (capped) lookahead. -/
def noBom (content : List Nat) : Prop :=
  bomUtf16be.isPrefixOf content = false ∧ bomUtf16le.isPrefixOf content = false ∧
  bomUtf8.isPrefixOf content = false

/-- Common core of `determineEncoding` (src/unnamed/part_001 lines 89-142)
and the library's `DetermineEncoding` (`x/net/html/charset`), which differ
only in the lookahead cap (10240 vs 1024 bytes) and in the fallback
encoding (`charmap.ISO8859_1, "ISO 8859-1"` vs
`charmap.Windows1252, "windows-1252"`). -/
def determineEncodingCore (ctx : Ctx) (fb : Enc × String)
    (content : List Nat) (ct : String) : Option Enc × String × Bool :=
  if bomUtf16be.isPrefixOf content then bomLookup ctx "utf-16be"
  else if bomUtf16le.isPrefixOf content then bomLookup ctx "utf-16le"
  else if bomUtf8.isPrefixOf content then bomLookup ctx "utf-8"
  else
    match ctCharset ctx ct with
    | some (e, nm) => (some e, nm, true)
    | none =>
      match prescanGuard ctx content with
      | (some e, nm) => (some e, nm, false)
      | (none, _) =>
        if (trimTail content).any (fun b => decide (0x80 ≤ b)) &&
           utf8Valid (trimTail content) then
          (some .nop, "utf-8", false)
        else (some fb.1, fb.2, false)

def determineEncodingG (ctx : Ctx) (cap : Nat) (fb : Enc × String)
    (content0 : List Nat) (ct : String) : Option Enc × String × Bool :=
  determineEncodingCore ctx fb (content0.take cap) ct

/-- The `determineEncoding` of src/unnamed/part_001 (cap 10240, ISO 8859-1
fallback). -/
def determineEncoding (ctx : Ctx) (content : List Nat) (ct : String) :
    Option Enc × String × Bool :=
  determineEncodingG ctx 10240 (.iso8859_1, "ISO 8859-1") content ct

/-- The `DetermineEncoding` of the `x/net/html/charset` library (cap 1024,
windows-1252 fallback), as called by `charset.NewReader` from txtopener.go
and part_000. -/
def determineEncodingLib (ctx : Ctx) (content : List Nat) (ct : String) :
    Option Enc × String × Bool :=
  determineEncodingG ctx 1024 (.windows1252, "windows-1252") content ct

/-- A sequential byte source: the bytes it delivers, then either a clean
end of stream (`err = none`) or an I/O error with code `c`
(`err = some c`). -/
structure ByteSrc where
  data : List Nat
  err : Option Nat
deriving DecidableEq, Repr

/-- Priming / construction outcomes of the Go error type. -/
inductive IOErr where
  | eof
  | ioCode (c : Nat)
deriving DecidableEq, Repr

/-- Result of `newReader` / `charset.NewReader`: a construction error
(`io.EOF` or a propagated I/O failure), a nil-encoding panic (the
`transform.NewReader(r, nil.NewDecoder())` case, unreachable with a sane
registry), or the decoded stream it exposes. -/
inductive NRRes where
  | fail (e : IOErr)
  | nilPanic
  | ok (data : List Nat) (err : Option Nat)
deriving DecidableEq, Repr

/-- Common core of `newReader` (src/unnamed/part_001 lines 68-83) and the
library's `charset.NewReader`, which differ only in the preview size
(10240 vs 1024) and the `DetermineEncoding` they call.  `io.ReadFull` on the
preview yields: a full preview when the source has at least `cap` bytes;
`io.ErrUnexpectedEOF` (preview truncated, accepted) when the source ends
cleanly after 1..cap-1 bytes; `io.EOF` (returned as the construction error)
when it ends cleanly at 0 bytes; and the I/O error itself (returned) when
the source fails during priming.  The preview is then replayed in front of
the remaining stream, and the whole stream is decoded unless the resolved
encoding is the no-op one. -/
def newReaderDecode (dEf : List Nat → String → Option Enc × String × Bool)
    (src : ByteSrc) (ct : String) (preview : List Nat) : NRRes :=
  match (dEf preview ct).1 with
  | some .nop => .ok src.data src.err
  | some e => .ok (decodeBytes e src.data) src.err
  | none => .nilPanic

def newReaderG (dEf : List Nat → String → Option Enc × String × Bool)
    (cap : Nat) (src : ByteSrc) (ct : String) : NRRes :=
  if cap ≤ src.data.length then newReaderDecode dEf src ct (src.data.take cap)
  else
    match src.err with
    | some c => .fail (.ioCode c)
    | none =>
      if src.data.isEmpty then .fail .eof
      else newReaderDecode dEf src ct (src.data.take cap)

/-- Final outcome of the exported `NewReader`: a panic (a propagated
construction failure or the nil-encoding case) or the reader handed to the
caller, read to exhaustion. -/
inductive Panic where
  | ioFail (c : Nat)
  | nilEnc
deriving DecidableEq, Repr

inductive RResult where
  | panik (p : Panic)
  | reader (data : List Nat) (err : Option Nat)
deriving DecidableEq, Repr

/-- The BOM probe of part_000 and part_001 `NewReader`
(`io.ReadFull(nr, bom)`; on `io.EOF`/`io.ErrUnexpectedEOF` with fewer than
3 bytes, `return bytes.NewReader(bom[:n])`; on any other error, panic;
otherwise strip an `EF BB BF` prefix or push the 3 bytes back). -/
def bomProbeKeep (d : List Nat) (derr : Option Nat) : RResult :=
  if 3 ≤ d.length then
    if d.take 3 = bomUtf8 then .reader (d.drop 3) derr else .reader d derr
  else
    match derr with
    | some c => .panik (.ioFail c)
    | none => .reader d none

/-- The BOM probe of the current txtopener.go `NewReader`: on any read
error with fewer than 3 bytes it returns the already-drained `nr`
(`if n < len(bom) { return nr }`), losing the probed bytes. -/
def bomProbeDrop (d : List Nat) (derr : Option Nat) : RResult :=
  if 3 ≤ d.length then
    if d.take 3 = bomUtf8 then .reader (d.drop 3) derr else .reader d derr
  else .reader [] derr

/-- The error plumbing shared by all three `NewReader` versions:
`io.EOF` from construction returns the original reader (already at EOF,
so it re-yields the source's data-or-error tail, which is empty there);
any other construction error panics; otherwise the BOM probe runs. -/
def assemble (probe : List Nat → Option Nat → RResult) (src : ByteSrc) :
    NRRes → RResult
  | .fail .eof => .reader src.data src.err
  | .fail (.ioCode c) => .panik (.ioFail c)
  | .nilPanic => .panik .nilEnc
  | .ok d derr => probe d derr

/-- The `NewReader` of src/unnamed/part_001 (vendored `newReader` with cap
10240, then the keep-style BOM probe). -/
def NewReaderPart001 (ctx : Ctx) (src : ByteSrc) : RResult :=
  assemble bomProbeKeep src (newReaderG (determineEncoding ctx) 10240 src "")

/-- The library call `charset.NewReader(r, "")` as made by txtopener.go and part_000. -/
def charsetNewReader (ctx : Ctx) (src : ByteSrc) : NRRes :=
  newReaderG (determineEncodingLib ctx) 1024 src ""

/-- The `NewReader` of src/unnamed/part_000 (library `charset.NewReader`, then
the keep-style BOM probe). -/
def NewReaderPart000 (ctx : Ctx) (src : ByteSrc) : RResult :=
  assemble bomProbeKeep src (charsetNewReader ctx src)

/-- The `NewReader` of the current src/txtopener.go (library
`charset.NewReader`, then the drop-style BOM probe). -/
def NewReaderCurrent (ctx : Ctx) (src : ByteSrc) : RResult :=
  assemble bomProbeDrop src (charsetNewReader ctx src)

/-- The registry `charset.Lookup` via `x/text/encoding/htmlindex` on the labels used in
this development (note the WHATWG registry resolves the `iso-8859-1` and
`latin1` labels to windows-1252). -/
def lookupStd (l : String) : Option Enc × String :=
  if l = "utf-8" || l = "utf8" then (some .utf8, "utf-8")
  else if l = "utf-16be" then (some .utf16be, "utf-16be")
  else if l = "utf-16le" || l = "utf-16" then (some .utf16le, "utf-16le")
  else if l = "windows-1252" || l = "iso-8859-1" || l = "latin1" || l = "ascii"
       || l = "us-ascii" then (some .windows1252, "windows-1252")
  else (none, "")

/-- A tokenizer that yields no tags, adequate for byte buffers that contain
no `<`: the real tokenizer emits only text tokens on such input. -/
def tokenizeNone : List Nat → List Tag := fun _ => []

/-- The parser `mime.ParseMediaType` on the media types used here: it fails on the
empty string (txtopener always passes content-type `""`). -/
def parseMTNone : String → Option (List (String × String)) := fun _ => none

/-- The concrete external context used by witnesses and counterexamples. -/
def ctx0 : Ctx := ⟨tokenizeNone, lookupStd, parseMTNone⟩

theorem w1252_ascii {b : Nat} (h : b < 0x80) : w1252 b = b := by
  unfold w1252
  repeat rw [if_neg (by omega)]

theorem encodeUtf8_ascii {b : Nat} (h : b < 0x80) : encodeUtf8 b = [b] := by
  unfold encodeUtf8
  rw [if_pos h]

theorem decodeBytes_iso_ascii {l : List Nat} (h : ∀ b ∈ l, b < 0x80) :
    decodeBytes .iso8859_1 l = l := by
  induction l with
  | nil => rfl
  | cons a as ih =>
    have ha : a < 0x80 := h a (by simp)
    have has : ∀ b ∈ as, b < 0x80 := fun b hb => h b (by simp [hb])
    simp only [decodeBytes] at ih ⊢
    rw [List.flatMap_cons, encodeUtf8_ascii ha, ih has]
    rfl

theorem decodeBytes_w1252_ascii {l : List Nat} (h : ∀ b ∈ l, b < 0x80) :
    decodeBytes .windows1252 l = l := by
  induction l with
  | nil => rfl
  | cons a as ih =>
    have ha : a < 0x80 := h a (by simp)
    have has : ∀ b ∈ as, b < 0x80 := fun b hb => h b (by simp [hb])
    simp only [decodeBytes] at ih ⊢
    rw [List.flatMap_cons, w1252_ascii ha, encodeUtf8_ascii ha, ih has]
    rfl

theorem take_any_false {p : Nat → Bool} {l : List Nat} (n : Nat)
    (h : l.any p = false) : (l.take n).any p = false := by
  rw [List.any_eq_false] at h ⊢
  exact fun x hx => h x (List.mem_of_mem_take hx)

theorem trimTail_any_false {p : Nat → Bool} {c : List Nat}
    (h : c.any p = false) : (trimTail c).any p = false := by
  unfold trimTail
  split_ifs <;> first | exact h | exact take_any_false _ h

theorem ascii_any_false {l : List Nat} (h : ∀ b ∈ l, b < 0x80) :
    l.any (fun b => decide (0x80 ≤ b)) = false := by
  rw [List.any_eq_false]
  intro x hx
  simpa using Nat.not_le_of_lt (h x hx)

theorem noBom_of_ascii {l : List Nat} (h : ∀ b ∈ l, b < 0x80) : noBom l := by
  cases l with
  | nil => refine ⟨rfl, rfl, rfl⟩
  | cons b bs =>
    have hb : b < 0x80 := h b (by simp)
    refine ⟨?_, ?_, ?_⟩ <;>
      simp only [bomUtf16be, bomUtf16le, bomUtf8, List.isPrefixOf, Bool.and_eq_false_iff] <;>
      left <;> simpa using by omega

theorem bomUtf8_isPrefixOf_iff (l : List Nat) :
    bomUtf8.isPrefixOf l = true ↔ l.take 3 = bomUtf8 := by
  rcases l with _ | ⟨a, _ | ⟨b, _ | ⟨c, t⟩⟩⟩ <;>
    simp [bomUtf8, List.isPrefixOf, List.take] <;> omega

theorem newReaderG_clean_ne (dEf : List Nat → String → Option Enc × String × Bool)
    (cap : Nat) (d : List Nat) (ct : String) (hne : d ≠ []) :
    newReaderG dEf cap ⟨d, none⟩ ct = newReaderDecode dEf ⟨d, none⟩ ct (d.take cap) := by
  unfold newReaderG
  by_cases hc : cap ≤ d.length
  · rw [if_pos hc]
  · rw [if_neg hc]
    simp [List.isEmpty_iff, hne]

theorem newReaderDecode_ok_err (dEf : List Nat → String → Option Enc × String × Bool)
    (src : ByteSrc) (ct : String) (preview d : List Nat) (derr : Option Nat)
    (h : newReaderDecode dEf src ct preview = .ok d derr) : derr = src.err := by
  unfold newReaderDecode at h
  split at h <;> simp_all

theorem newReaderG_ok_err (dEf : List Nat → String → Option Enc × String × Bool)
    (cap : Nat) (src : ByteSrc) (ct : String) (d : List Nat) (derr : Option Nat)
    (h : newReaderG dEf cap src ct = .ok d derr) : derr = src.err := by
  unfold newReaderG at h
  by_cases hc : cap ≤ src.data.length
  · rw [if_pos hc] at h
    exact newReaderDecode_ok_err dEf src ct _ d derr h
  · rw [if_neg hc] at h
    rcases he : src.err with _ | c
    · rw [he] at h
      by_cases hemp : src.data.isEmpty = true
      · rw [if_pos hemp] at h
        exact absurd h (by simp)
      · rw [if_neg hemp] at h
        exact (newReaderDecode_ok_err dEf src ct _ d derr h).trans he
    · rw [he] at h
      simp at h

theorem dECore_bom16be (ctx : Ctx) (fb : Enc × String) (content : List Nat) (ct : String)
    (h : bomUtf16be.isPrefixOf content = true) :
    determineEncodingCore ctx fb content ct = bomLookup ctx "utf-16be" := by
  unfold determineEncodingCore
  rw [if_pos h]

theorem dECore_bom16le (ctx : Ctx) (fb : Enc × String) (content : List Nat) (ct : String)
    (h1 : bomUtf16be.isPrefixOf content = false)
    (h2 : bomUtf16le.isPrefixOf content = true) :
    determineEncodingCore ctx fb content ct = bomLookup ctx "utf-16le" := by
  unfold determineEncodingCore
  rw [if_neg (by simp [h1]), if_pos h2]

theorem dECore_bom8 (ctx : Ctx) (fb : Enc × String) (content : List Nat) (ct : String)
    (h1 : bomUtf16be.isPrefixOf content = false)
    (h2 : bomUtf16le.isPrefixOf content = false)
    (h3 : bomUtf8.isPrefixOf content = true) :
    determineEncodingCore ctx fb content ct = bomLookup ctx "utf-8" := by
  unfold determineEncodingCore
  rw [if_neg (by simp [h1]), if_neg (by simp [h2]), if_pos h3]

theorem dECore_ct (ctx : Ctx) (fb : Enc × String) (content : List Nat) (ct : String)
    (e : Enc) (nm : String) (hb : noBom content)
    (hct : ctCharset ctx ct = some (e, nm)) :
    determineEncodingCore ctx fb content ct = (some e, nm, true) := by
  unfold determineEncodingCore
  rw [if_neg (by simp [hb.1]), if_neg (by simp [hb.2.1]), if_neg (by simp [hb.2.2]), hct]

theorem dECore_prescan (ctx : Ctx) (fb : Enc × String) (content : List Nat) (ct : String)
    (e : Enc) (nm : String) (hb : noBom content)
    (hct : ctCharset ctx ct = none)
    (hps : prescanGuard ctx content = (some e, nm)) :
    determineEncodingCore ctx fb content ct = (some e, nm, false) := by
  unfold determineEncodingCore
  rw [if_neg (by simp [hb.1]), if_neg (by simp [hb.2.1]), if_neg (by simp [hb.2.2]), hct, hps]

theorem dECore_utf8h (ctx : Ctx) (fb : Enc × String) (content : List Nat) (ct : String)
    (hb : noBom content) (hct : ctCharset ctx ct = none)
    (hps : (prescanGuard ctx content).1 = none)
    (hh : ((trimTail content).any (fun b => decide (0x80 ≤ b)) &&
           utf8Valid (trimTail content)) = true) :
    determineEncodingCore ctx fb content ct = (some .nop, "utf-8", false) := by
  unfold determineEncodingCore
  rw [if_neg (by simp [hb.1]), if_neg (by simp [hb.2.1]), if_neg (by simp [hb.2.2]), hct]
  rcases hpg : prescanGuard ctx content with ⟨pe, pn⟩
  rw [hpg] at hps
  dsimp only at hps
  subst hps
  rw [hh]
  rfl

theorem dECore_fallback (ctx : Ctx) (fb : Enc × String) (content : List Nat) (ct : String)
    (hb : noBom content) (hct : ctCharset ctx ct = none)
    (hps : (prescanGuard ctx content).1 = none)
    (hh : ((trimTail content).any (fun b => decide (0x80 ≤ b)) &&
           utf8Valid (trimTail content)) = false) :
    determineEncodingCore ctx fb content ct = (some fb.1, fb.2, false) := by
  unfold determineEncodingCore
  rw [if_neg (by simp [hb.1]), if_neg (by simp [hb.2.1]), if_neg (by simp [hb.2.2]), hct]
  rcases hpg : prescanGuard ctx content with ⟨pe, pn⟩
  rw [hpg] at hps
  dsimp only at hps
  subst hps
  rw [hh]
  rfl

theorem dECore_ascii_fallback (ctx : Ctx) (fb : Enc × String) (content : List Nat)
    (ct : String) (hascii : ∀ b ∈ content, b < 0x80)
    (hct : ctCharset ctx ct = none)
    (hps : (prescanGuard ctx content).1 = none) :
    determineEncodingCore ctx fb content ct = (some fb.1, fb.2, false) := by
  refine dECore_fallback ctx fb content ct (noBom_of_ascii hascii) hct hps ?_
  rw [trimTail_any_false (ascii_any_false hascii)]
  rfl

theorem pipeline_decode (dEf : List Nat → String → Option Enc × String × Bool)
    (cap : Nat) (d : List Nat) (hne : d ≠ []) (e : Enc)
    (hdE : (dEf (d.take cap) "").1 = some e) (hnop : e ≠ .nop) :
    newReaderG dEf cap ⟨d, none⟩ "" = .ok (decodeBytes e d) none := by
  rw [newReaderG_clean_ne dEf cap d "" hne]
  unfold newReaderDecode
  rw [hdE]
  cases e
  · exact absurd rfl hnop
  all_goals rfl

theorem pipeline_nop (dEf : List Nat → String → Option Enc × String × Bool)
    (cap : Nat) (d : List Nat) (hne : d ≠ [])
    (hdE : (dEf (d.take cap) "").1 = some Enc.nop) :
    newReaderG dEf cap ⟨d, none⟩ "" = .ok d none := by
  rw [newReaderG_clean_ne dEf cap d "" hne]
  unfold newReaderDecode
  rw [hdE]

theorem utf8Sanitize_bom (rest : List Nat) :
    utf8Sanitize (0xEF :: 0xBB :: 0xBF :: rest) =
      0xEF :: 0xBB :: 0xBF :: utf8Sanitize rest := by
  rw [utf8Sanitize.eq_def]
  norm_num [isCont, accept3]

theorem bom_take_eq (rest : List Nat) (cap : Nat) (hcap : 3 ≤ cap) :
    (bomUtf8 ++ rest).take cap = bomUtf8 ++ rest.take (cap - 3) := by
  rw [List.take_append_eq_append_take,
      List.take_of_length_le (by simpa [bomUtf8] using hcap)]
  rfl

theorem dE_preview_bom8 (ctx : Ctx) (cap : Nat) (fb : Enc × String) (rest : List Nat)
    (hcap : 3 ≤ cap) :
    determineEncodingG ctx cap fb ((bomUtf8 ++ rest).take cap) "" =
      bomLookup ctx "utf-8" := by
  unfold determineEncodingG
  rw [List.take_take, Nat.min_self, bom_take_eq rest cap hcap]
  refine dECore_bom8 ctx fb _ "" ?_ ?_ ?_
  · simp [bomUtf8, bomUtf16be, List.isPrefixOf]
  · simp [bomUtf8, bomUtf16le, List.isPrefixOf]
  · exact ( List.isPrefixOf_iff_prefix).mpr ( List.prefix_append _ _)

theorem bom_probe_strip (rest : List Nat) (derr : Option Nat) :
    bomProbeKeep (bomUtf8 ++ rest) derr = .reader rest derr ∧
    bomProbeDrop (bomUtf8 ++ rest) derr = .reader rest derr := by
  have hlen : 3 ≤ (bomUtf8 ++ rest).length := by simp [bomUtf8]
  have ht : (bomUtf8 ++ rest).take 3 = bomUtf8 := by
    have := List.take_left bomUtf8 rest
    simpa [bomUtf8] using this
  have hd : (bomUtf8 ++ rest).drop 3 = rest := by
    have := List.drop_left bomUtf8 rest
    simpa [bomUtf8] using this
  constructor
  · unfold bomProbeKeep
    rw [if_pos hlen, if_pos ht, hd]
  · unfold bomProbeDrop
    rw [if_pos hlen, if_pos ht, hd]

theorem pipeline_bom_both (ctx : Ctx) (rest : List Nat)
    (hlk : ctx.lookup "utf-8" = (some Enc.utf8, "utf-8")) :
    NewReaderPart001 ctx ⟨bomUtf8 ++ rest, none⟩ = .reader (utf8Sanitize rest) none ∧
    NewReaderCurrent ctx ⟨bomUtf8 ++ rest, none⟩ = .reader (utf8Sanitize rest) none := by
  have hne : bomUtf8 ++ rest ≠ [] := by simp [bomUtf8]
  have hdec : decodeBytes Enc.utf8 (bomUtf8 ++ rest) = bomUtf8 ++ utf8Sanitize rest := by
    show utf8Sanitize (bomUtf8 ++ rest) = bomUtf8 ++ utf8Sanitize rest
    rw [show bomUtf8 ++ rest = 0xEF :: 0xBB :: 0xBF :: rest from rfl, utf8Sanitize_bom]
    rfl
  constructor
  · unfold NewReaderPart001
    have hdE : (determineEncoding ctx (((bomUtf8 ++ rest)).take 10240) "").1 =
        some Enc.utf8 := by
      unfold determineEncoding
      rw [dE_preview_bom8 ctx 10240 _ rest (by omega)]
      unfold bomLookup
      rw [hlk]
    rw [pipeline_decode (determineEncoding ctx) 10240 _ hne Enc.utf8 hdE (by simp), hdec]
    exact (bom_probe_strip (utf8Sanitize rest) none).1
  · unfold NewReaderCurrent charsetNewReader
    have hdE : (determineEncodingLib ctx (((bomUtf8 ++ rest)).take 1024) "").1 =
        some Enc.utf8 := by
      unfold determineEncodingLib
      rw [dE_preview_bom8 ctx 1024 _ rest (by omega)]
      unfold bomLookup
      rw [hlk]
    rw [pipeline_decode (determineEncodingLib ctx) 1024 _ hne Enc.utf8 hdE (by simp), hdec]
    exact (bom_probe_strip (utf8Sanitize rest) none).2

/-- Claim C1 (amended): for every input that begins with the UTF-8 BOM
`EF BB BF` and whose remaining bytes are well-formed UTF-8 (equivalently,
are left unchanged by the UTF-8 decoder), reading the stream returned by
`NewReader` (both the part_001 version and the current txtopener.go
version) to exhaustion yields exactly the input with the 3-byte prefix
removed. -/
theorem claim_C1_amended (ctx : Ctx) (rest : List Nat)
    (hlk : ctx.lookup "utf-8" = (some Enc.utf8, "utf-8"))
    (hs : utf8Sanitize rest = rest) :
    NewReaderPart001 ctx ⟨bomUtf8 ++ rest, none⟩ = .reader rest none ∧
    NewReaderCurrent ctx ⟨bomUtf8 ++ rest, none⟩ = .reader rest none := by
  have h := pipeline_bom_both ctx rest hlk
  rw [hs] at h
  exact h

theorem claim_C1_witness :
    NewReaderPart001 ctx0 ⟨bomUtf8 ++ [0xC3, 0xA9], none⟩ = .reader [0xC3, 0xA9] none ∧
    NewReaderCurrent ctx0 ⟨bomUtf8 ++ [0xC3, 0xA9], none⟩ = .reader [0xC3, 0xA9] none :=
  claim_C1_amended ctx0 [0xC3, 0xA9] (by decide) (by simp [utf8Sanitize, isCont])

/-- Claim C1 as stated is false: on input `EF BB BF FF` (a UTF-8 BOM
followed by the ill-formed byte `FF`) both `NewReader` versions yield the
replacement-character bytes `EF BF BD`, not the input minus the BOM
(`FF`): the BOM branch decodes through `unicode.UTF8`, which replaces
ill-formed input. -/
theorem claim_C1_counterexample :
    NewReaderPart001 ctx0 ⟨[0xEF, 0xBB, 0xBF, 0xFF], none⟩ =
      .reader [0xEF, 0xBF, 0xBD] none ∧
    NewReaderCurrent ctx0 ⟨[0xEF, 0xBB, 0xBF, 0xFF], none⟩ =
      .reader [0xEF, 0xBF, 0xBD] none ∧
    ([0xEF, 0xBF, 0xBD] : List Nat) ≠ [0xFF] := by
  have h := pipeline_bom_both ctx0 [0xFF] (by decide)
  have hs : utf8Sanitize [0xFF] = [0xEF, 0xBF, 0xBD] := by
    simp [utf8Sanitize, isCont, accept3, accept4, rep]
  rw [hs] at h
  exact ⟨h.1, h.2, by decide⟩

/-- Claim C2: `determineEncoding` (part_001) is a strict ordered decision
procedure, first match wins: (1) a recognized BOM prefix (checked in the
fixed order UTF-16BE, UTF-16LE, UTF-8) returns that looked-up encoding
with certain = true; (2) a content-type whose charset parameter the
registry recognizes returns it with certain = true; (3) an accepted
meta-tag charset returns it with certain = false; (4) if the capped
lookahead, after trimming any partial trailing rune (backward scan of at
most 3 bytes for a rune-start byte, as embodied in `trimTail`), contains a
byte ≥ 0x80 and is valid UTF-8, the no-op encoding is returned with
certain = false; (5) otherwise ISO-8859-1 with certain = false; and in
particular every all-ASCII (hence also every empty) buffer with no
recognized content-type and no accepted meta tag falls through to the
Latin-1 fallback. -/
theorem claim_C2 (ctx : Ctx) (c : List Nat) (ct : String) :
    (bomUtf16be.isPrefixOf (c.take 10240) = true →
      determineEncoding ctx c ct =
        ((ctx.lookup "utf-16be").1, (ctx.lookup "utf-16be").2, true)) ∧
    (bomUtf16be.isPrefixOf (c.take 10240) = false →
      bomUtf16le.isPrefixOf (c.take 10240) = true →
      determineEncoding ctx c ct =
        ((ctx.lookup "utf-16le").1, (ctx.lookup "utf-16le").2, true)) ∧
    (bomUtf16be.isPrefixOf (c.take 10240) = false →
      bomUtf16le.isPrefixOf (c.take 10240) = false →
      bomUtf8.isPrefixOf (c.take 10240) = true →
      determineEncoding ctx c ct =
        ((ctx.lookup "utf-8").1, (ctx.lookup "utf-8").2, true)) ∧
    (∀ e nm, noBom (c.take 10240) → ctCharset ctx ct = some (e, nm) →
      determineEncoding ctx c ct = (some e, nm, true)) ∧
    (∀ e nm, noBom (c.take 10240) → ctCharset ctx ct = none →
      prescanGuard ctx (c.take 10240) = (some e, nm) →
      determineEncoding ctx c ct = (some e, nm, false)) ∧
    (noBom (c.take 10240) → ctCharset ctx ct = none →
      (prescanGuard ctx (c.take 10240)).1 = none →
      ((trimTail (c.take 10240)).any (fun b => decide (0x80 ≤ b)) &&
        utf8Valid (trimTail (c.take 10240))) = true →
      determineEncoding ctx c ct = (some .nop, "utf-8", false)) ∧
    (noBom (c.take 10240) → ctCharset ctx ct = none →
      (prescanGuard ctx (c.take 10240)).1 = none →
      ((trimTail (c.take 10240)).any (fun b => decide (0x80 ≤ b)) &&
        utf8Valid (trimTail (c.take 10240))) = false →
      determineEncoding ctx c ct = (some .iso8859_1, "ISO 8859-1", false)) ∧
    ((∀ b ∈ c, b < 0x80) → ctCharset ctx ct = none →
      (prescanGuard ctx (c.take 10240)).1 = none →
      determineEncoding ctx c ct = (some .iso8859_1, "ISO 8859-1", false)) := by
  unfold determineEncoding determineEncodingG
  refine ⟨?_, ?_, ?_, ?_, ?_, ?_, ?_, ?_⟩
  · intro h1
    rw [dECore_bom16be ctx _ _ ct h1]
    rfl
  · intro h1 h2
    rw [dECore_bom16le ctx _ _ ct h1 h2]
    rfl
  · intro h1 h2 h3
    rw [dECore_bom8 ctx _ _ ct h1 h2 h3]
    rfl
  · intro e nm hb hct
    exact dECore_ct ctx _ _ ct e nm hb hct
  · intro e nm hb hct hps
    exact dECore_prescan ctx _ _ ct e nm hb hct hps
  · intro hb hct hps hh
    exact dECore_utf8h ctx _ _ ct hb hct hps hh
  · intro hb hct hps hh
    exact dECore_fallback ctx _ _ ct hb hct hps hh
  · intro hascii hct hps
    exact dECore_ascii_fallback ctx _ _ ct
      (fun b hb => hascii b (List.mem_of_mem_take hb)) hct hps

theorem claim_C2_witness :
    determineEncoding ctx0 [0x61] "" = (some .iso8859_1, "ISO 8859-1", false) :=
  (claim_C2 ctx0 [0x61] "").2.2.2.2.2.2.2 (by decide) rfl rfl

theorem ascii_pipeline_short (ctx : Ctx) (d : List Nat)
    (hlen : d.length < 3) (hascii : ∀ b ∈ d, b < 0x80)
    (hct : ctCharset ctx "" = none)
    (hps : (prescanGuard ctx d).1 = none) :
    NewReaderPart001 ctx ⟨d, none⟩ = .reader d none ∧
    NewReaderPart000 ctx ⟨d, none⟩ = .reader d none ∧
    NewReaderCurrent ctx ⟨d, none⟩ = .reader [] none := by
  by_cases hne : d = []
  · subst hne
    refine ⟨rfl, rfl, rfl⟩
  · have ht1 : d.take 10240 = d := List.take_of_length_le (by omega)
    have ht2 : d.take 1024 = d := List.take_of_length_le (by omega)
    have hdE1 : (determineEncoding ctx (d.take 10240) "").1 = some Enc.iso8859_1 := by
      unfold determineEncoding determineEncodingG
      simp only [ht1]
      rw [dECore_ascii_fallback ctx _ d "" hascii hct hps]
    have hdE2 : (determineEncodingLib ctx (d.take 1024) "").1 = some Enc.windows1252 := by
      unfold determineEncodingLib determineEncodingG
      simp only [ht2]
      rw [dECore_ascii_fallback ctx _ d "" hascii hct hps]
    refine ⟨?_, ?_, ?_⟩
    · unfold NewReaderPart001
      rw [pipeline_decode (determineEncoding ctx) 10240 d hne Enc.iso8859_1 hdE1 (by simp),
          decodeBytes_iso_ascii hascii]
      show bomProbeKeep d none = .reader d none
      unfold bomProbeKeep
      rw [if_neg (by omega)]
    · unfold NewReaderPart000 charsetNewReader
      rw [pipeline_decode (determineEncodingLib ctx) 1024 d hne Enc.windows1252 hdE2 (by simp),
          decodeBytes_w1252_ascii hascii]
      show bomProbeKeep d none = .reader d none
      unfold bomProbeKeep
      rw [if_neg (by omega)]
    · unfold NewReaderCurrent charsetNewReader
      rw [pipeline_decode (determineEncodingLib ctx) 1024 d hne Enc.windows1252 hdE2 (by simp),
          decodeBytes_w1252_ascii hascii]
      show bomProbeDrop d none = .reader [] none
      unfold bomProbeDrop
      rw [if_neg (by omega)]

/-- Claim C3 (amended): on every error-free input of fewer than 3 bytes
none of the three `NewReader` versions panics; when the input is pure
ASCII (and, as for any input this small, the tokenizer yields no meta
tag), the part_000 and part_001 versions return exactly the input bytes,
while the current txtopener.go version returns the input only when it is
empty and the empty stream otherwise (its short-stream branch
`if n < len(bom) { return nr }` hands back the already-drained reader). -/
theorem claim_C3_amended (ctx : Ctx) (d : List Nat)
    (hlen : d.length < 3) (hascii : ∀ b ∈ d, b < 0x80)
    (hct : ctCharset ctx "" = none)
    (hps : (prescanGuard ctx d).1 = none) :
    NewReaderPart001 ctx ⟨d, none⟩ = .reader d none ∧
    NewReaderPart000 ctx ⟨d, none⟩ = .reader d none ∧
    NewReaderCurrent ctx ⟨d, none⟩ = .reader [] none :=
  ascii_pipeline_short ctx d hlen hascii hct hps

theorem claim_C3_witness :
    NewReaderPart001 ctx0 ⟨[0x61], none⟩ = .reader [0x61] none ∧
    NewReaderPart000 ctx0 ⟨[0x61], none⟩ = .reader [0x61] none ∧
    NewReaderCurrent ctx0 ⟨[0x61], none⟩ = .reader [] none :=
  claim_C3_amended ctx0 [0x61] (by decide) (by decide) rfl rfl

/-- Claim C3 as stated is false: the single byte `EF` (the spec's own
example) comes back as `C3 AF` from the part_001 version (the Latin-1
fallback decodes it), and the single ASCII byte `a` comes back as the
empty stream from the current txtopener.go version (its short-stream
branch drops the probed bytes), though no version panics. -/
theorem claim_C3_counterexample :
    NewReaderPart001 ctx0 ⟨[0xEF], none⟩ = .reader [0xC3, 0xAF] none ∧
    NewReaderCurrent ctx0 ⟨[0x61], none⟩ = .reader [] none ∧
    ([0xC3, 0xAF] : List Nat) ≠ [0xEF] ∧ (([] : List Nat)) ≠ [0x61] := by
  refine ⟨?_, ?_, by decide, by decide⟩ <;> decide

theorem procAttr_content_first (lookup : String → Option Enc × String)
    (ctVal nmv : String) (e : Enc) (nm : String)
    (hfm : fromMetaElement (lowerStr ctVal) = nmv) (hnm : nmv ≠ "")
    (hlk : lookup nmv = (some e, nm)) :
    procAttr lookup initTagState ("content", ctVal) =
      ⟨["content"], false, .doNeed, some e, nm⟩ := by
  unfold procAttr initTagState
  dsimp only
  rw [if_neg (by decide), if_neg (by decide), if_pos rfl, hfm, if_neg hnm, hlk]

theorem procAttr_pragma_second (lookup : String → Option Enc × String)
    (st : TagState) (hseen : st.seen.contains "http-equiv" = false) :
    procAttr lookup st ("http-equiv", "Content-Type") =
      { st with seen := "http-equiv" :: st.seen, gotPragma := true } := by
  unfold procAttr
  dsimp only
  rw [if_neg (by rw [hseen]; simp), if_pos rfl, if_pos (by decide)]

theorem procAttr_pragma_first (lookup : String → Option Enc × String) :
    procAttr lookup initTagState ("http-equiv", "Content-Type") =
      ⟨["http-equiv"], true, .dontKnow, none, ""⟩ := by
  rw [procAttr_pragma_second lookup initTagState rfl]
  rfl

theorem procAttr_content_second (lookup : String → Option Enc × String)
    (st : TagState) (ctVal nmv : String) (e : Enc) (nm : String)
    (hseen : st.seen.contains "content" = false) (he : st.e = none)
    (hfm : fromMetaElement (lowerStr ctVal) = nmv) (hnm : nmv ≠ "")
    (hlk : lookup nmv = (some e, nm)) :
    procAttr lookup st ("content", ctVal) =
      { st with seen := "content" :: st.seen, e := some e, name := nm,
                needPragma := .doNeed } := by
  unfold procAttr
  dsimp only
  rw [if_neg (by rw [hseen]; simp), if_neg (by decide), if_pos rfl, he, hfm, if_neg hnm, hlk]

theorem procAttr_charset_first (lookup : String → Option Enc × String)
    (v : String) (r : Option Enc × String) (hlk : lookup (lowerStr v) = r) :
    procAttr lookup initTagState ("charset", v) =
      ⟨["charset"], false, .doNotNeed, r.1, r.2⟩ := by
  unfold procAttr initTagState
  dsimp only
  rw [if_neg (by decide), if_neg (by decide), if_neg (by decide), if_pos rfl, hlk]

theorem prescan_one_meta (lookup : String → Option Enc × String)
    (attrs : List (String × String)) (st : TagState)
    (hst : attrs.foldl (procAttr lookup) initTagState = st) :
    prescan lookup [⟨"meta", attrs⟩] =
      (if st.needPragma = .dontKnow ∨ (st.needPragma = .doNeed ∧ st.gotPragma = false) then
        ((none : Option Enc), "")
      else if hasPrefixS st.name "utf-16" then (some Enc.nop, "utf-8")
      else match st.e with
           | some e2 => (some e2, st.name)
           | none => ((none : Option Enc), "")) := by
  unfold prescan
  rw [if_pos rfl, hst]
  dsimp only
  by_cases hg : st.needPragma = .dontKnow ∨ (st.needPragma = .doNeed ∧ st.gotPragma = false)
  · have hb : (decide (st.needPragma = NeedP.dontKnow) ||
        (decide (st.needPragma = NeedP.doNeed) && !st.gotPragma)) = true := by
      rcases hg with h | ⟨h1, h2⟩
      · simp [h]
      · simp [h1, h2]
    rw [if_pos hb, if_pos hg]
    rfl
  · have hb : (decide (st.needPragma = NeedP.dontKnow) ||
        (decide (st.needPragma = NeedP.doNeed) && !st.gotPragma)) = false := by
      by_cases h1 : st.needPragma = NeedP.dontKnow
      · exact absurd (Or.inl h1) hg
      · by_cases h2 : st.needPragma = NeedP.doNeed
        · have h3 : st.gotPragma = true := by
            cases hgp : st.gotPragma
            · exact absurd (Or.inr ⟨h2, hgp⟩) hg
            · rfl
          simp [h1, h2, h3]
        · simp [h1, h2]
    rw [if_neg (by simp [hb]), if_neg hg]
    by_cases h16 : hasPrefixS st.name "utf-16" = true
    · rw [if_pos h16, if_pos h16]
    · rw [if_neg h16, if_neg h16]
      rcases st.e with _ | e2 <;> rfl

/-- Claim C4: in `prescan`, a charset declared inside a `content` attribute
value is accepted only when an `http-equiv="content-type"` attribute is
present on the same meta tag — including when the `content` attribute
precedes the pragma, in which case acceptance is deferred to the end of
the attribute iteration; a standalone `charset="X"` attribute is accepted
with no pragma; and a meta tag carrying a content-declared charset but no
pragma contributes no encoding (the scan falls through). -/
theorem claim_C4 (lookup : String → Option Enc × String) (ctVal nmv : String)
    (e : Enc) (nm : String)
    (hfm : fromMetaElement (lowerStr ctVal) = nmv) (hnm : nmv ≠ "")
    (hlk : lookup nmv = (some e, nm)) (h16 : hasPrefixS nm "utf-16" = false) :
    prescan lookup [⟨"meta", [("content", ctVal), ("http-equiv", "Content-Type")]⟩] =
      (some e, nm) ∧
    prescan lookup [⟨"meta", [("http-equiv", "Content-Type"), ("content", ctVal)]⟩] =
      (some e, nm) ∧
    prescan lookup [⟨"meta", [("content", ctVal)]⟩] = (none, "") ∧
    (∀ v e2 nm2, lookup (lowerStr v) = (some e2, nm2) →
      hasPrefixS nm2 "utf-16" = false →
      prescan lookup [⟨"meta", [("charset", v)]⟩] = (some e2, nm2)) := by
  refine ⟨?_, ?_, ?_, ?_⟩
  · have hst : [("content", ctVal), ("http-equiv", "Content-Type")].foldl
        (procAttr lookup) initTagState =
        ⟨["http-equiv", "content"], true, .doNeed, some e, nm⟩ := by
      rw [List.foldl_cons, procAttr_content_first lookup ctVal nmv e nm hfm hnm hlk,
          List.foldl_cons,
          procAttr_pragma_second lookup ⟨["content"], false, .doNeed, some e, nm⟩ rfl,
          List.foldl_nil]
    rw [prescan_one_meta lookup _ _ hst]
    rw [if_neg (by simp), if_neg (by simp [h16])]
  · have hst : [("http-equiv", "Content-Type"), ("content", ctVal)].foldl
        (procAttr lookup) initTagState =
        ⟨["content", "http-equiv"], true, .doNeed, some e, nm⟩ := by
      rw [List.foldl_cons, procAttr_pragma_first lookup,
          List.foldl_cons,
          procAttr_content_second lookup ⟨["http-equiv"], true, .dontKnow, none, ""⟩
            ctVal nmv e nm rfl rfl hfm hnm hlk,
          List.foldl_nil]
    rw [prescan_one_meta lookup _ _ hst]
    rw [if_neg (by simp), if_neg (by simp [h16])]
  · have hst : [("content", ctVal)].foldl (procAttr lookup) initTagState =
        ⟨["content"], false, .doNeed, some e, nm⟩ := by
      rw [List.foldl_cons, procAttr_content_first lookup ctVal nmv e nm hfm hnm hlk,
          List.foldl_nil]
    rw [prescan_one_meta lookup _ _ hst]
    rw [if_pos (by simp)]
  · intro v e2 nm2 hlk2 h162
    have hst : [("charset", v)].foldl (procAttr lookup) initTagState =
        ⟨["charset"], false, .doNotNeed, some e2, nm2⟩ := by
      rw [List.foldl_cons, procAttr_charset_first lookup v (some e2, nm2) hlk2,
          List.foldl_nil]
    rw [prescan_one_meta lookup _ _ hst]
    rw [if_neg (by simp), if_neg (by simp [h162])]

theorem claim_C4_witness :
    prescan lookupStd
      [⟨"meta", [("content", "text/html; charset=windows-1252"),
                 ("http-equiv", "Content-Type")]⟩] =
      (some Enc.windows1252, "windows-1252") ∧
    prescan lookupStd [⟨"meta", [("content", "text/html; charset=windows-1252")]⟩] =
      (none, "") := by
  have h := claim_C4 lookupStd "text/html; charset=windows-1252" "windows-1252"
    Enc.windows1252 "windows-1252"
    (by simp [fromMetaElement, lowerStr, lowerChar, fromMetaElementL, dropAfterSub,
              startsWithL, charsetPat, trimL, wsp, takeUntilChar])
    (by decide) (by decide) (by decide)
  exact ⟨h.1, h.2.2.1⟩

/-- Claim C7: when the charset name accepted from a meta tag starts with
"utf-16" (after canonicalization by the registry lookup), `prescan`
returns the no-op encoding under the name "utf-8" instead of a UTF-16
encoding — both for a standalone `charset` attribute and for a
pragma-confirmed `content` declaration. -/
theorem claim_C7 (lookup : String → Option Enc × String) (v : String)
    (e2 : Enc) (nm2 : String)
    (hlk : lookup (lowerStr v) = (some e2, nm2))
    (h16 : hasPrefixS nm2 "utf-16" = true) :
    prescan lookup [⟨"meta", [("charset", v)]⟩] = (some Enc.nop, "utf-8") ∧
    (∀ ctVal nmv e nm, fromMetaElement (lowerStr ctVal) = nmv → nmv ≠ "" →
      lookup nmv = (some e, nm) → hasPrefixS nm "utf-16" = true →
      prescan lookup
          [⟨"meta", [("content", ctVal), ("http-equiv", "Content-Type")]⟩] =
        (some Enc.nop, "utf-8")) := by
  constructor
  · have hst : [("charset", v)].foldl (procAttr lookup) initTagState =
        ⟨["charset"], false, .doNotNeed, some e2, nm2⟩ := by
      rw [List.foldl_cons, procAttr_charset_first lookup v (some e2, nm2) hlk,
          List.foldl_nil]
    rw [prescan_one_meta lookup _ _ hst]
    rw [if_neg (by simp), if_pos h16]
  · intro ctVal nmv e nm hfm hnm hlkc h16c
    have hst : [("content", ctVal), ("http-equiv", "Content-Type")].foldl
        (procAttr lookup) initTagState =
        ⟨["http-equiv", "content"], true, .doNeed, some e, nm⟩ := by
      rw [List.foldl_cons, procAttr_content_first lookup ctVal nmv e nm hfm hnm hlkc,
          List.foldl_cons,
          procAttr_pragma_second lookup ⟨["content"], false, .doNeed, some e, nm⟩ rfl,
          List.foldl_nil]
    rw [prescan_one_meta lookup _ _ hst]
    rw [if_neg (by simp), if_pos h16c]

theorem claim_C7_witness :
    prescan lookupStd [⟨"meta", [("charset", "UTF-16LE")]⟩] =
      (some Enc.nop, "utf-8") :=
  (claim_C7 lookupStd "UTF-16LE" Enc.utf16le "utf-16le" (by decide) (by decide)).1

/-- Claim C5 (amended): the pipeline is stable on a stream `o` — re-running
part_001's `NewReader` on `o` returns `o` unchanged — provided `o` does not
begin with a recognized BOM signature, the meta-tag scan of its first
10240 bytes accepts no encoding, the content-type stays undeclared, `o` is
either pure ASCII or passes the UTF-8 heuristic (a non-ASCII byte survives
the partial-rune trim of the capped lookahead and the trimmed lookahead is
valid UTF-8), and `o` is empty or at least 3 bytes long.  All of these
hold for typical `NewReader` outputs, but not for all of them, hence the
counterexample. -/
theorem claim_C5_amended (ctx : Ctx) (o : List Nat)
    (hct : ctCharset ctx "" = none)
    (hbom : noBom (o.take 10240))
    (hps : (prescanGuard ctx (o.take 10240)).1 = none)
    (hcase : (∀ b ∈ o, b < 0x80) ∨
      ((trimTail (o.take 10240)).any (fun b => decide (0x80 ≤ b)) = true ∧
       utf8Valid (trimTail (o.take 10240)) = true))
    (hlen : o = [] ∨ 3 ≤ o.length) :
    NewReaderPart001 ctx ⟨o, none⟩ = .reader o none := by
  rcases hlen with rfl | h3
  · rfl
  · have hne : o ≠ [] := by
      intro h
      subst h
      simp at h3
    have hprobe : bomProbeKeep o none = .reader o none := by
      unfold bomProbeKeep
      rw [if_pos h3, if_neg ?hnb]
      case hnb =>
        intro htk
        have hpre : bomUtf8.isPrefixOf (o.take 10240) = true := by
          rw [bomUtf8_isPrefixOf_iff, List.take_take]
          simpa using htk
        rw [hbom.2.2] at hpre
        cases hpre
    unfold NewReaderPart001
    rcases hcase with hascii | ⟨hhi, hval⟩
    · have hdE : (determineEncoding ctx (o.take 10240) "").1 = some Enc.iso8859_1 := by
        unfold determineEncoding determineEncodingG
        simp only [List.take_take, Nat.min_self]
        rw [dECore_ascii_fallback ctx _ (o.take 10240) ""
          (fun b hb => hascii b (List.mem_of_mem_take hb)) hct hps]
      rw [pipeline_decode (determineEncoding ctx) 10240 o hne Enc.iso8859_1 hdE (by simp),
          decodeBytes_iso_ascii hascii]
      exact hprobe
    · have hdE : (determineEncoding ctx (o.take 10240) "").1 = some Enc.nop := by
        unfold determineEncoding determineEncodingG
        simp only [List.take_take, Nat.min_self]
        rw [dECore_utf8h ctx _ (o.take 10240) "" hbom hct hps (by rw [hhi, hval]; rfl)]
      rw [pipeline_nop (determineEncoding ctx) 10240 o hne hdE]
      exact hprobe

theorem claim_C5_witness :
    NewReaderPart001 ctx0 ⟨[0x61, 0x62, 0x63], none⟩ =
      .reader [0x61, 0x62, 0x63] none :=
  claim_C5_amended ctx0 [0x61, 0x62, 0x63] rfl ⟨by decide, by decide, by decide⟩ rfl
    (Or.inl (by decide)) (Or.inr (by decide))

/-- Claim C5 as stated is false: `NewReader` is not idempotent on every
input.  On `EF BB BF EF BB BF` (a doubled UTF-8 BOM) the first pass
strips only the first BOM, so its output `EF BB BF` still begins with a
BOM, and a second pass strips that too, returning the empty stream. -/
theorem claim_C5_counterexample :
    NewReaderPart001 ctx0 ⟨[0xEF, 0xBB, 0xBF, 0xEF, 0xBB, 0xBF], none⟩ =
      .reader [0xEF, 0xBB, 0xBF] none ∧
    NewReaderPart001 ctx0 ⟨[0xEF, 0xBB, 0xBF], none⟩ = .reader [] none ∧
    (([] : List Nat)) ≠ [0xEF, 0xBB, 0xBF] := by
  refine ⟨?_, ?_, by decide⟩
  · have h := (pipeline_bom_both ctx0 [0xEF, 0xBB, 0xBF] (by decide)).1
    have hs : utf8Sanitize [0xEF, 0xBB, 0xBF] = [0xEF, 0xBB, 0xBF] := by
      simp [utf8Sanitize, isCont, accept3]
    rw [hs] at h
    exact h
  · have h := (pipeline_bom_both ctx0 [] (by decide)).1
    have hs : utf8Sanitize [] = [] := by simp [utf8Sanitize]
    rw [hs] at h
    simpa using h

/-- Claim C6 (amended): the inner `newReader` surfaces a source I/O
failure during priming as a recoverable error value, but the exported
`NewReader` of every version turns that propagated failure into a panic
(`if err != io.EOF { panic(err) }`); the convenience wrappers are not the
only places that abort. -/
theorem claim_C6_amended (ctx : Ctx) (src : ByteSrc) (c : Nat)
    (hlen : src.data.length < 1024) (herr : src.err = some c) :
    newReaderG (determineEncoding ctx) 10240 src "" = .fail (.ioCode c) ∧
    charsetNewReader ctx src = .fail (.ioCode c) ∧
    NewReaderPart001 ctx src = .panik (.ioFail c) ∧
    NewReaderPart000 ctx src = .panik (.ioFail c) ∧
    NewReaderCurrent ctx src = .panik (.ioFail c) := by
  have h1 : newReaderG (determineEncoding ctx) 10240 src "" = .fail (.ioCode c) := by
    unfold newReaderG
    rw [if_neg (by omega), herr]
  have h2 : charsetNewReader ctx src = .fail (.ioCode c) := by
    unfold charsetNewReader newReaderG
    rw [if_neg (by omega), herr]
  refine ⟨h1, h2, ?_, ?_, ?_⟩
  · unfold NewReaderPart001
    rw [h1]
    rfl
  · unfold NewReaderPart000
    rw [h2]
    rfl
  · unfold NewReaderCurrent
    rw [h2]
    rfl

theorem claim_C6_witness :
    NewReaderPart001 ctx0 ⟨[0x41], some 3⟩ = .panik (.ioFail 3) :=
  (claim_C6_amended ctx0 ⟨[0x41], some 3⟩ 3 (by decide) rfl).2.2.1

/-- Claim C6 as stated is false: a priming I/O failure does reach the
caller of the exported `NewReader` as a panic, not as a recoverable error
value. -/
theorem claim_C6_counterexample :
    NewReaderPart001 ctx0 ⟨[], some 7⟩ = .panik (.ioFail 7) ∧
    NewReaderCurrent ctx0 ⟨[], some 7⟩ = .panik (.ioFail 7) ∧
    (∀ d derr, RResult.panik (.ioFail 7) ≠ .reader d derr) := by
  refine ⟨by decide, by decide, ?_⟩
  intro d derr h
  cases h

/-- Claim C8: bytes beyond the 10240-byte lookahead cap never influence
encoding resolution — `determineEncoding` (part_001) yields the same
(encoding, name, certainty) triple for any two contents that agree on
their first 10240 bytes, for every tokenizer, registry, media-type parser
and declared content-type. -/
theorem claim_C8 (ctx : Ctx) (c1 c2 : List Nat) (ct : String)
    (h : c1.take 10240 = c2.take 10240) :
    determineEncoding ctx c1 ct = determineEncoding ctx c2 ct := by
  unfold determineEncoding determineEncodingG
  rw [h]

theorem claim_C8_witness :
    determineEncoding ctx0 (List.replicate 10240 0x61 ++ [0x00]) "" =
      determineEncoding ctx0 (List.replicate 10240 0x61 ++ [0x01]) "" :=
  claim_C8 ctx0 _ _ "" (by
    have hr : (List.replicate 10240 (0x61 : Nat)).length = 10240 :=
      List.length_replicate 10240 0x61
    rw [List.take_append_eq_append_take, List.take_append_eq_append_take,
        List.take_of_length_le (le_of_eq hr), hr]
    simp only [Nat.sub_self, List.take_zero, List.append_nil])

/-- Claim C9: `fromMetaElement` finds the literal substring "charset",
skips whitespace, requires an `=`, skips whitespace, then reads either a
quoted value terminated by the matching quote or an unquoted token
terminated by whitespace or `;`, and returns the empty string on
malformed input (no such substring, missing `=`, missing value,
unterminated quote) rather than failing.  Stated as: the no-occurrence
case in general, plus one evaluation for each described behaviour. -/
theorem claim_C9 :
    (∀ s : List Char, dropAfterSub s charsetPat = none → fromMetaElementL s = []) ∧
    fromMetaElement "text/html; charset=windows-1252" = "windows-1252" ∧
    fromMetaElement "x charset = \"utf-8\" y" = "utf-8" ∧
    fromMetaElement "charset=\x27abc\x27;d" = "abc" ∧
    fromMetaElement "charset utf-8" = "" ∧
    fromMetaElement "charset=\"abc" = "" ∧
    fromMetaElement "charset= " = "" := by
  refine ⟨?_, ?_, ?_, ?_, ?_, ?_, ?_⟩
  · intro s h
    rw [fromMetaElementL.eq_def]
    split
    · rfl
    · split
      · rfl
      · next heq => rw [h] at heq; cases heq
  all_goals
    simp [fromMetaElement, fromMetaElementL, dropAfterSub, startsWithL, charsetPat,
          trimL, wsp, takeUntilChar]

theorem claim_C9_witness :
    fromMetaElementL ("no declaration here".data) = [] :=
  claim_C9.1 _ (by simp [dropAfterSub, startsWithL, charsetPat])

/-- Claim C10 (amended): the current txtopener.go `NewReader` and the
part_000 `NewReader` (which share `charset.NewReader`) are extensionally
equal on every error-free input whose decoded stream is empty or at least
3 bytes — they differ exactly on 1-2-byte decoded streams, which the
current version drops; and part_001 differs from both by its larger
lookahead cap and its ISO-8859-1 (vs windows-1252) fallback, visibly on
the single byte `80`. -/
theorem claim_C10_amended (ctx : Ctx) (src : ByteSrc) (herr : src.err = none)
    (hd : ∀ d derr, charsetNewReader ctx src = .ok d derr → d = [] ∨ 3 ≤ d.length) :
    NewReaderCurrent ctx src = NewReaderPart000 ctx src := by
  unfold NewReaderCurrent NewReaderPart000
  cases hh : charsetNewReader ctx src with
  | fail e => cases e <;> rfl
  | nilPanic => rfl
  | ok d derr =>
    have hde : derr = none := (newReaderG_ok_err _ _ _ _ _ _ hh).trans herr
    subst hde
    show bomProbeDrop d none = bomProbeKeep d none
    rcases hd d none hh with rfl | h3
    · rfl
    · unfold bomProbeKeep bomProbeDrop
      rw [if_pos h3, if_pos h3]

theorem claim_C10_witness :
    NewReaderCurrent ctx0 ⟨[0x61, 0x62, 0x63], none⟩ =
      NewReaderPart000 ctx0 ⟨[0x61, 0x62, 0x63], none⟩ :=
  claim_C10_amended ctx0 ⟨[0x61, 0x62, 0x63], none⟩ rfl (by
    intro d derr h
    have hcn : charsetNewReader ctx0 ⟨[0x61, 0x62, 0x63], none⟩ =
        .ok [0x61, 0x62, 0x63] none := by decide
    have h2 := hcn.symm.trans h
    injection h2 with hd2 hderr2
    subst hd2
    right
    decide)

/-- Claim C10 as stated is false: the three `NewReader` versions are not
extensionally equal.  On the single ASCII byte `a` the current version
returns the empty stream while part_000 (and part_001) return `a`; on the
single byte `80` part_000 (windows-1252 fallback) returns `E2 82 AC`
(U+20AC) while part_001 (ISO-8859-1 fallback) returns `C2 80` (U+0080). -/
theorem claim_C10_counterexample :
    NewReaderCurrent ctx0 ⟨[0x61], none⟩ = .reader [] none ∧
    NewReaderPart000 ctx0 ⟨[0x61], none⟩ = .reader [0x61] none ∧
    NewReaderPart000 ctx0 ⟨[0x80], none⟩ = .reader [0xE2, 0x82, 0xAC] none ∧
    NewReaderPart001 ctx0 ⟨[0x80], none⟩ = .reader [0xC2, 0x80] none ∧
    RResult.reader ([] : List Nat) (none : Option Nat) ≠ RResult.reader [0x61] none ∧
    RResult.reader [0xE2, 0x82, 0xAC] (none : Option Nat) ≠
      RResult.reader [0xC2, 0x80] none := by
  refine ⟨?_, ?_, ?_, ?_, by decide, by decide⟩ <;> decide
